import Mathlib

/-!
Verification of the CineGen scene-generator client (src/index.tsx):
the generic undo/redo history reducer, the WAV container encoder
(addWavHeader) and the scene-generation pipeline (generateScene) are
embedded as pure Lean functions and the specified properties are settled
against them.
-/

namespace CineGen

/-- The undoable history record `HistoryState<T>` of src/index.tsx:
`past` (oldest first), the current `present`, and `future` (nearest redo
candidate first, as produced by `UNDO` which conses the old present onto
`future`). -/
structure HistoryState (T : Type) where
  past : List T
  present : T
  future : List T
deriving DecidableEq

/-- The reducer actions of src/index.tsx (`UNDO` / `REDO` / `SET` /
`UPDATE_FIELD`).  `UPDATE_FIELD field value` computes the shallow copy of
the present with one field overwritten; that computation is embedded as
the update function `fun p => { p with field := value }` carried by the
constructor. -/
inductive Action (T : Type) where
  | undo : Action T
  | redo : Action T
  | set (payload : T) : Action T
  | updateField (upd : T → T) : Action T

/-- `historyReducer` of src/index.tsx (lines 32-66).  `UNDO` is a no-op on
empty `past`, otherwise pops the last entry of `past`; `REDO` is a no-op on
empty `future`, otherwise shifts its head; `SET` short-circuits when the
payload equals the present (the source compares with `===`; two
reference-equal values are in particular equal); `UPDATE_FIELD` always
pushes (the fresh object produced by the spread is never `===` the old
present, and the reducer does not compare). -/
def historyReducer {T : Type} [DecidableEq T] (state : HistoryState T)
    (action : Action T) : HistoryState T :=
  match action with
  | Action.undo =>
    if h : state.past = [] then state
    else ⟨state.past.dropLast, state.past.getLast h, state.present :: state.future⟩
  | Action.redo =>
    match state.future with
    | [] => state
    | f :: rest => ⟨state.past ++ [state.present], f, rest⟩
  | Action.set payload =>
    if payload = state.present then state
    else ⟨state.past ++ [state.present], payload, []⟩
  | Action.updateField upd =>
    ⟨state.past ++ [state.present], upd state.present, []⟩

/-- `canUndo = state.past.length > 0` (src/index.tsx line 86). -/
def canUndo {T : Type} (s : HistoryState T) : Bool :=
  decide (0 < s.past.length)

/-- `canRedo = state.future.length > 0` (src/index.tsx line 87). -/
def canRedo {T : Type} (s : HistoryState T) : Bool :=
  decide (0 < s.future.length)

/-- The initial history built by `useUndoRedo` (src/index.tsx lines 68-73):
empty `past` and `future` around the initial document. -/
def initialHistory {T : Type} (d : T) : HistoryState T :=
  ⟨[], d, []⟩

/-- Dispatching a list of actions in order through the reducer. -/
def applyActions {T : Type} [DecidableEq T] (s : HistoryState T) :
    List (Action T) → HistoryState T
  | [] => s
  | a :: rest => applyActions (historyReducer s a) rest

/-- `n` successive `undo()` dispatches. -/
def undoN {T : Type} [DecidableEq T] (s : HistoryState T) : Nat → HistoryState T
  | 0 => s
  | n + 1 => undoN (historyReducer s Action.undo) n

/-- An action is an effective edit at state `s`: a `set` whose payload
differs from the present (so the `SET` short-circuit does not fire), or
any `updateField`. -/
def editGuard {T : Type} [DecidableEq T] (s : HistoryState T) : Action T → Bool
  | Action.set p => decide (p ≠ s.present)
  | Action.updateField _ => true
  | _ => false

/-- A list of actions is a sequence of effective edits from `s`: every
action is a `set` or `updateField`, and every `set` carries a payload
different from the present at the moment it is dispatched. -/
def effectiveFrom {T : Type} [DecidableEq T] (s : HistoryState T) :
    List (Action T) → Bool
  | [] => true
  | a :: rest => editGuard s a && effectiveFrom (historyReducer s a) rest

/-- The successive presents pushed onto `past` by a sequence of edits. -/
def pushedChain {T : Type} [DecidableEq T] (s : HistoryState T) :
    List (Action T) → List T
  | [] => []
  | a :: rest => s.present :: pushedChain (historyReducer s a) rest

/-- The chronological document timeline held by a history state:
`past`, then `present`, then `future` in stored order (the head of
`future` is the next redo, i.e. the chronologically nearest future
document). -/
def timeline {T : Type} (s : HistoryState T) : List T :=
  s.past ++ s.present :: s.future

/-- The sequence named by claim C10: `past ++ [present] ++ reverse(future)`. -/
def revTimeline {T : Type} (s : HistoryState T) : List T :=
  s.past ++ s.present :: s.future.reverse

theorem headD_dropLast_getLast {α : Type} (l : List α) (h : l ≠ []) (d : α) :
    l.dropLast.headD (l.getLast h) = l.headD d := by
  cases l with
  | nil => exact absurd rfl h
  | cons x t =>
    cases t with
    | nil => rfl
    | cons y u => rfl

theorem effectiveFrom_cons {T : Type} [DecidableEq T] {s : HistoryState T}
    {a : Action T} {rest : List (Action T)}
    (h : effectiveFrom s (a :: rest) = true) :
    editGuard s a = true ∧ effectiveFrom (historyReducer s a) rest = true := by
  unfold effectiveFrom at h
  simp only [Bool.and_eq_true] at h
  exact h

theorem applyActions_effective_past {T : Type} [DecidableEq T] :
    ∀ (acts : List (Action T)) (s : HistoryState T),
      effectiveFrom s acts = true →
      (applyActions s acts).past = s.past ++ pushedChain s acts ∧
      (pushedChain s acts).length = acts.length := by
  intro acts
  induction acts with
  | nil => intro s _; simp [applyActions, pushedChain]
  | cons a rest ih =>
    intro s h
    obtain ⟨hg, hrest⟩ := effectiveFrom_cons h
    cases a with
    | undo => simp [editGuard] at hg
    | redo => simp [editGuard] at hg
    | set p =>
      have hne : ¬(p = s.present) := by simpa [editGuard] using hg
      have hred : historyReducer s (Action.set p) =
          ⟨s.past ++ [s.present], p, []⟩ := by
        simp [historyReducer, hne]
      obtain ⟨h1, h2⟩ := ih (historyReducer s (Action.set p)) hrest
      constructor
      · simp only [applyActions, pushedChain]
        rw [h1, hred]
        simp
      · simp only [pushedChain, List.length_cons, h2]
    | updateField upd =>
      have hred : historyReducer s (Action.updateField upd) =
          ⟨s.past ++ [s.present], upd s.present, []⟩ := rfl
      obtain ⟨h1, h2⟩ := ih (historyReducer s (Action.updateField upd)) hrest
      constructor
      · simp only [applyActions, pushedChain]
        rw [h1, hred]
        simp
      · simp only [pushedChain, List.length_cons, h2]

theorem undoN_drain {T : Type} [DecidableEq T] :
    ∀ (n : Nat) (s : HistoryState T), s.past.length = n →
      (undoN s n).past = [] ∧ (undoN s n).present = s.past.headD s.present := by
  intro n
  induction n with
  | zero =>
    intro s h
    have hnil : s.past = [] := List.length_eq_zero.mp h
    simp [undoN, hnil]
  | succ n ih =>
    intro s h
    have hne : s.past ≠ [] := by
      intro he; rw [he] at h; simp at h
    have hred : historyReducer s Action.undo =
        ⟨s.past.dropLast, s.past.getLast hne, s.present :: s.future⟩ := by
      simp [historyReducer, hne]
    have hlen : (historyReducer s Action.undo).past.length = n := by
      rw [hred]
      simp only [List.length_dropLast, h]
      omega
    obtain ⟨h1, h2⟩ := ih (historyReducer s Action.undo) hlen
    refine ⟨by simpa [undoN] using h1, ?_⟩
    simp only [undoN]
    rw [h2, hred]
    exact headD_dropLast_getLast s.past hne s.present

/-- C2 fails as stated: the one-call sequence consisting of
`replace(current present)` is short-circuited by the reducer, so after this
N = 1 call sequence `canUndo` is still false (the claim asserts it is
true). -/
theorem c2_noop_replace_cex :
    canUndo (applyActions (initialHistory (0 : Nat)) [Action.set 0]) = false := by
  decide

/-- C2 (amended): for every sequence of N ≥ 1 `replace`/`updateField`
dispatches from the initial history in which every `replace` carries a
value different from the present at the moment of the call (so the `SET`
short-circuit never fires), `canUndo` is true afterwards, and exactly N
`undo()` dispatches return the present to the initial document and make
`canUndo` false. -/
theorem c2_effective_edits_undo_all (T : Type) [DecidableEq T] (d : T)
    (acts : List (Action T)) (hne : acts ≠ [])
    (heff : effectiveFrom (initialHistory d) acts = true) :
    canUndo (applyActions (initialHistory d) acts) = true ∧
    (undoN (applyActions (initialHistory d) acts) acts.length).present = d ∧
    canUndo (undoN (applyActions (initialHistory d) acts) acts.length) = false := by
  obtain ⟨hp, hl⟩ := applyActions_effective_past acts (initialHistory d) heff
  have hpast : (applyActions (initialHistory d) acts).past =
      pushedChain (initialHistory d) acts := by
    simpa [initialHistory] using hp
  have hplen : (applyActions (initialHistory d) acts).past.length = acts.length := by
    rw [hpast, hl]
  obtain ⟨hdrain1, hdrain2⟩ :=
    undoN_drain acts.length (applyActions (initialHistory d) acts) hplen
  refine ⟨?_, ?_, ?_⟩
  · cases acts with
    | nil => exact absurd rfl hne
    | cons a rest =>
      simp only [canUndo, decide_eq_true_eq]
      rw [hplen]
      simp
  · rw [hdrain2, hpast]
    cases acts with
    | nil => exact absurd rfl hne
    | cons a rest => simp [pushedChain, initialHistory]
  · simp [canUndo, hdrain1]

/-- Witness for C2 (amended) at the concrete sequence `[replace 1]` over
the initial document `0`. -/
theorem c2_witness :
    ([Action.set 1] : List (Action Nat)) ≠ [] ∧
    effectiveFrom (initialHistory (0 : Nat)) [Action.set 1] = true ∧
    (canUndo (applyActions (initialHistory (0 : Nat)) [Action.set 1]) = true ∧
     (undoN (applyActions (initialHistory (0 : Nat)) [Action.set 1]) 1).present = 0 ∧
     canUndo (undoN (applyActions (initialHistory (0 : Nat)) [Action.set 1]) 1) = false) :=
  ⟨by simp, rfl, c2_effective_edits_undo_all Nat 0 [Action.set 1] (by simp) rfl⟩

/-- C3: `replace(x)` with `x` equal to the current present leaves the whole
history state unchanged (no entry pushed), while `updateField` always
pushes the current present onto `past`, installs the updated document and
clears `future` — for every update function, in particular one that leaves
the document unchanged. -/
theorem c3_replace_shortcircuit_updateField_always_pushes (T : Type)
    [DecidableEq T] (s : HistoryState T) (upd : T → T) :
    historyReducer s (Action.set s.present) = s ∧
    historyReducer s (Action.updateField upd) =
      ⟨s.past ++ [s.present], upd s.present, []⟩ := by
  constructor
  · simp [historyReducer]
  · rfl

/-- Witness for C3 at a concrete state, with the identity update (the new
field value equals the old one). -/
theorem c3_witness :
    historyReducer (⟨[0], 1, [2]⟩ : HistoryState Nat) (Action.set 1) =
      ⟨[0], 1, [2]⟩ ∧
    historyReducer (⟨[0], 1, [2]⟩ : HistoryState Nat)
        (Action.updateField (fun x => x)) = ⟨[0, 1], 1, []⟩ :=
  c3_replace_shortcircuit_updateField_always_pushes Nat ⟨[0], 1, [2]⟩ (fun x => x)

/-- C4: with non-empty `past`, `redo()` immediately after `undo()` restores
exactly the present value the undo removed; and for every history state,
an `updateField` issued after an `undo()` leaves `future` empty, so a
subsequent `redo()` is a no-op. -/
theorem c4_redo_after_undo_and_updateField_clears_future (T : Type)
    [DecidableEq T] :
    (∀ s : HistoryState T, s.past ≠ [] →
      (historyReducer (historyReducer s Action.undo) Action.redo).present =
        s.present) ∧
    (∀ (s : HistoryState T) (upd : T → T),
      (historyReducer (historyReducer s Action.undo)
          (Action.updateField upd)).future = [] ∧
      historyReducer
          (historyReducer (historyReducer s Action.undo) (Action.updateField upd))
          Action.redo =
        historyReducer (historyReducer s Action.undo) (Action.updateField upd)) := by
  constructor
  · intro s h
    simp [historyReducer, h]
  · intro s upd
    exact ⟨rfl, rfl⟩

/-- Witness for C4 at a concrete state with non-empty past. -/
theorem c4_witness :
    (⟨[0], 1, [2]⟩ : HistoryState Nat).past ≠ [] ∧
    (historyReducer (historyReducer (⟨[0], 1, [2]⟩ : HistoryState Nat)
        Action.undo) Action.redo).present = 1 ∧
    (historyReducer (historyReducer (⟨[0], 1, [2]⟩ : HistoryState Nat)
        Action.undo) (Action.updateField (fun x => x + 7))).future = [] :=
  ⟨by simp,
   (c4_redo_after_undo_and_updateField_clears_future Nat).1 ⟨[0], 1, [2]⟩ (by simp),
   ((c4_redo_after_undo_and_updateField_clears_future Nat).2 ⟨[0], 1, [2]⟩
     (fun x => x + 7)).1⟩

/-- C10 fails as stated: with `future = [2, 3]`, an `undo` changes the
sequence `past ++ [present] ++ reverse(future)` (it is `[0, 1, 3, 2]`
before and `[0, 3, 2, 1]` after), because `future` is stored
nearest-redo-first, not newest-first. -/
theorem c10_reverse_future_cex :
    revTimeline (historyReducer (⟨[0], 1, [2, 3]⟩ : HistoryState Nat)
        Action.undo) ≠
      revTimeline (⟨[0], 1, [2, 3]⟩ : HistoryState Nat) := by
  decide

/-- C10 (amended): `undo()` and `redo()` never lose or duplicate a
document: the chronological sequence `past ++ [present] ++ future` (with
`future` in stored order, its head being the nearest redo candidate) is
unchanged by an undo or a redo. -/
theorem c10_timeline_preserved (T : Type) [DecidableEq T] (s : HistoryState T) :
    timeline (historyReducer s Action.undo) = timeline s ∧
    timeline (historyReducer s Action.redo) = timeline s := by
  constructor
  · by_cases h : s.past = []
    · simp [historyReducer, h]
    · simp only [historyReducer, dif_neg h, timeline]
      calc s.past.dropLast ++ s.past.getLast h :: s.present :: s.future
          = (s.past.dropLast ++ [s.past.getLast h]) ++ s.present :: s.future := by
            simp
        _ = s.past ++ s.present :: s.future := by
            rw [List.dropLast_append_getLast h]
  · cases hf : s.future with
    | nil => simp [historyReducer, hf]
    | cons f rest => simp [historyReducer, hf, timeline]

/-- Witness for C10 (amended) at a concrete state with two redo
candidates. -/
theorem c10_witness :
    timeline (historyReducer (⟨[0], 1, [2, 3]⟩ : HistoryState Nat) Action.undo) =
      timeline (⟨[0], 1, [2, 3]⟩ : HistoryState Nat) ∧
    timeline (historyReducer (⟨[0], 1, [2, 3]⟩ : HistoryState Nat) Action.redo) =
      timeline (⟨[0], 1, [2, 3]⟩ : HistoryState Nat) :=
  c10_timeline_preserved Nat ⟨[0], 1, [2, 3]⟩

/-- A 16-bit little-endian field as written by `DataView.setUint16`
(the value is truncated modulo 2^16). -/
def u16le (v : Nat) : List Nat :=
  [v % 256, v / 256 % 256]

/-- A 32-bit little-endian field as written by `DataView.setUint32`
(the value is truncated modulo 2^32). -/
def u32le (v : Nat) : List Nat :=
  [v % 256, v / 256 % 256, v / 65536 % 256, v / 16777216 % 256]

/-- `writeString` of src/index.tsx: the character codes of an ASCII chunk
identifier, one byte per character. -/
def asciiBytes (s : String) : List Nat :=
  s.toList.map Char.toNat

/-- `addWavHeader` of src/index.tsx (lines 373-401): the 44-byte RIFF/WAVE
header followed by the sample bytes unchanged.  The fields appear at their
offsets in the order the source writes them: "RIFF" at 0, chunk size
36 + N at 4, "WAVE" at 8, "fmt " at 12, sub-chunk size 16 at 16, format
code 1 (PCM) at 20, channel count at 22, sample rate at 24, byte rate
sampleRate * numChannels * 2 at 28, block align numChannels * 2 at 32,
bits per sample 16 at 34, "data" at 36 and data size N at 40; every
multi-byte field is little-endian. -/
def addWavHeader (samples : List Nat) (sampleRate numChannels : Nat) : List Nat :=
  asciiBytes "RIFF" ++ u32le (36 + samples.length) ++ asciiBytes "WAVE" ++
  asciiBytes "fmt " ++ u32le 16 ++ u16le 1 ++ u16le numChannels ++
  u32le sampleRate ++ u32le (sampleRate * numChannels * 2) ++
  u16le (numChannels * 2) ++ u16le 16 ++ asciiBytes "data" ++
  u32le samples.length ++ samples

/-- The byte of an encoded buffer at an offset (0 past the end). -/
def byteAt (bs : List Nat) (i : Nat) : Nat :=
  bs.getD i 0

/-- The unsigned 16-bit little-endian integer at an offset of a buffer. -/
def readU16 (bs : List Nat) (off : Nat) : Nat :=
  byteAt bs off + 256 * byteAt bs (off + 1)

/-- The unsigned 32-bit little-endian integer at an offset of a buffer. -/
def readU32 (bs : List Nat) (off : Nat) : Nat :=
  byteAt bs off + 256 * byteAt bs (off + 1) +
    65536 * byteAt bs (off + 2) + 16777216 * byteAt bs (off + 3)

theorem addWavHeader_unfold (samples : List Nat) (sampleRate numChannels : Nat) :
    addWavHeader samples sampleRate numChannels =
      82 :: 73 :: 70 :: 70 ::
      (36 + samples.length) % 256 :: (36 + samples.length) / 256 % 256 ::
      (36 + samples.length) / 65536 % 256 ::
      (36 + samples.length) / 16777216 % 256 ::
      87 :: 65 :: 86 :: 69 :: 102 :: 109 :: 116 :: 32 ::
      16 :: 0 :: 0 :: 0 :: 1 :: 0 ::
      numChannels % 256 :: numChannels / 256 % 256 ::
      sampleRate % 256 :: sampleRate / 256 % 256 ::
      sampleRate / 65536 % 256 :: sampleRate / 16777216 % 256 ::
      (sampleRate * numChannels * 2) % 256 ::
      (sampleRate * numChannels * 2) / 256 % 256 ::
      (sampleRate * numChannels * 2) / 65536 % 256 ::
      (sampleRate * numChannels * 2) / 16777216 % 256 ::
      (numChannels * 2) % 256 :: (numChannels * 2) / 256 % 256 ::
      16 :: 0 :: 100 :: 97 :: 116 :: 97 ::
      samples.length % 256 :: samples.length / 256 % 256 ::
      samples.length / 65536 % 256 :: samples.length / 16777216 % 256 ::
      samples := rfl

theorem le32_recompose (v : Nat) (h : v < 4294967296) :
    v % 256 + 256 * (v / 256 % 256) + 65536 * (v / 65536 % 256) +
      16777216 * (v / 16777216 % 256) = v := by
  omega

/-- C5: for N sample bytes, sample rate R and channel count C (with the
size fields in range of their 32-bit containers), the encoder output has
exactly N + 44 bytes; bytes 0-3 are "RIFF" and bytes 8-11 are "WAVE"; the
little-endian 32-bit field at offset 4 is N + 36; the 16-bit field at
offset 20 is 1 (PCM); the 32-bit field at offset 28 is R * C * 2; the
16-bit field at offset 34 is 16; the 32-bit field at offset 40 is N; and
bytes 44 onward are the input samples unchanged. -/
theorem c5_wav_header_layout (samples : List Nat) (R C : Nat)
    (hN : samples.length + 36 < 4294967296) (hBR : R * C * 2 < 4294967296) :
    (addWavHeader samples R C).length = samples.length + 44 ∧
    (addWavHeader samples R C).take 4 = asciiBytes "RIFF" ∧
    ((addWavHeader samples R C).drop 8).take 4 = asciiBytes "WAVE" ∧
    readU32 (addWavHeader samples R C) 4 = samples.length + 36 ∧
    readU16 (addWavHeader samples R C) 20 = 1 ∧
    readU32 (addWavHeader samples R C) 28 = R * C * 2 ∧
    readU16 (addWavHeader samples R C) 34 = 16 ∧
    readU32 (addWavHeader samples R C) 40 = samples.length ∧
    (addWavHeader samples R C).drop 44 = samples := by
  rw [addWavHeader_unfold]
  refine ⟨by simp, rfl, rfl, ?_, ?_, ?_, ?_, ?_, rfl⟩
  · simp only [readU32, byteAt, List.getD_cons_succ, List.getD_cons_zero]
    have := le32_recompose (36 + samples.length) (by omega)
    omega
  · simp only [readU16, byteAt, List.getD_cons_succ, List.getD_cons_zero]
  · simp only [readU32, byteAt, List.getD_cons_succ, List.getD_cons_zero]
    exact le32_recompose (R * C * 2) hBR
  · simp only [readU16, byteAt, List.getD_cons_succ, List.getD_cons_zero]
  · simp only [readU32, byteAt, List.getD_cons_succ, List.getD_cons_zero]
    exact le32_recompose samples.length (by omega)

/-- Witness for C5 at three concrete sample bytes, 24000 Hz, one channel
(the profile the pipeline uses). -/
theorem c5_witness :
    ([1, 2, 3] : List Nat).length + 36 < 4294967296 ∧
    24000 * 1 * 2 < 4294967296 ∧
    ((addWavHeader [1, 2, 3] 24000 1).length = 47 ∧
     readU32 (addWavHeader [1, 2, 3] 24000 1) 4 = 39 ∧
     readU16 (addWavHeader [1, 2, 3] 24000 1) 20 = 1 ∧
     readU32 (addWavHeader [1, 2, 3] 24000 1) 28 = 48000 ∧
     readU32 (addWavHeader [1, 2, 3] 24000 1) 40 = 3 ∧
     (addWavHeader [1, 2, 3] 24000 1).drop 44 = [1, 2, 3]) := by
  refine ⟨by decide, by decide, ?_⟩
  have h := c5_wav_header_layout [1, 2, 3] 24000 1 (by decide) (by decide)
  exact ⟨h.1, h.2.2.2.1, h.2.2.2.2.1, h.2.2.2.2.2.1, h.2.2.2.2.2.2.2.1,
    h.2.2.2.2.2.2.2.2⟩

/-- The two values of the aspect-ratio field ("16:9" or "9:16"). -/
inductive Aspect where
  | wide : Aspect
  | tall : Aspect
deriving DecidableEq

/-- `FormState` of src/index.tsx (lines 9-18); the field `aspect` embeds
the aspect-ratio enum of the source.  The JS number `bgMusicVolume`
(written only by `parseFloat` on a range input stepping by 0.05 inside
[0, 1]) is modelled as a rational. -/
structure FormState where
  videoPrompt : String
  dialogue : String
  aspect : Aspect
  uploadedImage : Option String
  voiceName : String
  backgroundMusic : Option String
  bgMusicName : Option String
  bgMusicVolume : ℚ
deriving DecidableEq

/-- The component state a pipeline run reads and writes: the status line,
the loading flag and the two artifact references (`status`, `loading`,
`videoUri`, `audioUri` of src/index.tsx).  An object URL stands for the
byte content it resolves to. -/
structure UiState where
  status : String
  loading : Bool
  videoUri : Option (List Nat)
  audioUri : Option (List Nat)
deriving DecidableEq

/-- A long-running video operation handle: its `done` flag and the video
locator `response.generatedVideos[0].video.uri` (absent when the completed
operation carries no video). -/
structure Operation where
  done : Bool
  videoUri : Option String
deriving DecidableEq

/-- The remote service calls the pipeline can issue. -/
inductive RemoteCall where
  | tts (text voice : String) : RemoteCall
  | generateVideos (prompt : String) : RemoteCall
  | getVideosOperation : RemoteCall
  | fetchVideo (uri : String) : RemoteCall
deriving DecidableEq

/-- An observable pipeline event: a remote call being issued, or a
fixed-delay wait (milliseconds). -/
inductive Event where
  | call (c : RemoteCall) : Event
  | wait (ms : Nat) : Event
deriving DecidableEq

/-- The evolving run context: the UI state plus the ordered event trace of
the current run. -/
structure Ctx where
  ui : UiState
  events : List Event
deriving DecidableEq

/-- The environment of one run: the responses of the external services.
`tts` is the speech call (`Except.error` embeds a thrown error, `Except.ok
none` a response without inline audio data); `generateVideos` the video
submission; `polls` the successive results of the status re-queries;
`fetchVideo` the binary fetch keyed by locator. -/
structure Env where
  tts : Except String (Option (List Nat))
  generateVideos : Except String Operation
  polls : List (Except String Operation)
  fetchVideo : String → Except String (List Nat)

/-- The status string built by the catch block of src/index.tsx line 366:
`Error: ` followed by the thrown message, or the fallback when the message
is falsy (empty). -/
def errorStatus (m : String) : String :=
  "Error: " ++ (if m = "" then "Unknown error occurred" else m)

/-- The catch block: the error becomes a single status string. -/
def catchStep (m : String) (c : Ctx) : Ctx :=
  ⟨{ c.ui with status := errorStatus m }, c.events⟩

/-- The finally block: `setLoading(false)`. -/
def finallyStep (c : Ctx) : Ctx :=
  ⟨{ c.ui with loading := false }, c.events⟩

/-- The polling loop of src/index.tsx lines 346-350: while the operation
is not done, wait 5000 ms, re-query it (a throwing re-query propagates to
the catch block), and set the progress status.  `none` embeds the run that
never completes because the loop out-runs the environment's responses (the
source loop is unbounded). -/
def pollLoop :
    Operation → List (Except String Operation) → Ctx →
      Option (Except (String × Ctx) (Operation × Ctx))
  | op, [], c => if op.done then some (Except.ok (op, c)) else none
  | op, p :: rest, c =>
    if op.done then some (Except.ok (op, c))
    else
      let c1 : Ctx := ⟨c.ui,
        c.events ++ [Event.wait 5000, Event.call RemoteCall.getVideosOperation]⟩
      match p with
      | Except.error m => some (Except.error (m, c1))
      | Except.ok op2 =>
          pollLoop op2 rest ⟨{ c1.ui with status := "Veo is thinking..." }, c1.events⟩

/-- The control skeleton of the polling loop: which outcome the loop
reaches, determined by the operation and the poll responses alone. -/
def pollOutcome :
    Operation → List (Except String Operation) → Option (Except String Operation)
  | op, [] => if op.done then some (Except.ok op) else none
  | op, p :: rest =>
    if op.done then some (Except.ok op)
    else
      match p with
      | Except.error m => some (Except.error m)
      | Except.ok op2 => pollOutcome op2 rest

/-- Stage A of `generateScene` (src/index.tsx lines 284-313): only when
the dialogue is non-empty, the speech call is issued; a thrown error is
propagated (`Except.error`) to the single pipeline-level catch; a response
without audio data is skipped; otherwise the decoded bytes are wrapped by
`addWavHeader` at 24000 Hz mono and published as the audio reference. -/
def stageA (form : FormState) (env : Env) (c0 : Ctx) : Except (String × Ctx) Ctx :=
  if form.dialogue = "" then Except.ok c0
  else
    let c1 : Ctx := ⟨{ c0.ui with status := "Generating voiceover..." },
      c0.events ++ [Event.call (RemoteCall.tts form.dialogue form.voiceName)]⟩
    match env.tts with
    | Except.error m => Except.error (m, c1)
    | Except.ok none => Except.ok c1
    | Except.ok (some bytes) =>
        Except.ok ⟨{ c1.ui with audioUri := some (addWavHeader bytes 24000 1) },
          c1.events⟩

/-- The prompt submitted to the video service (src/index.tsx lines
325-343): with an uploaded image, the prompt text or the default
`Animate this image` when it is empty; without an image, the prompt
text. -/
def veoPrompt (form : FormState) : String :=
  match form.uploadedImage with
  | some _ => if form.videoPrompt = "" then "Animate this image" else form.videoPrompt
  | none => form.videoPrompt

/-- Stage B of `generateScene` (src/index.tsx lines 315-362): submit the
video request, poll to completion, extract the locator (throwing
`No video returned` when the completed operation has none), fetch the
binary and publish it, then set the completion status.  Every error path
runs the catch and finally blocks. -/
def stageB (form : FormState) (env : Env) (c2 : Ctx) : Option Ctx :=
  let c3 : Ctx := ⟨{ c2.ui with
      status := "Generating video with Veo (this may take a minute)..." },
    c2.events ++ [Event.call (RemoteCall.generateVideos (veoPrompt form))]⟩
  match env.generateVideos with
  | Except.error m => some (finallyStep (catchStep m c3))
  | Except.ok op0 =>
    match pollLoop op0 env.polls c3 with
    | none => none
    | some (Except.error (m, cE)) => some (finallyStep (catchStep m cE))
    | some (Except.ok (op, c4)) =>
      match op.videoUri with
      | none => some (finallyStep (catchStep "No video returned" c4))
      | some uri =>
        let c5 : Ctx := ⟨c4.ui, c4.events ++ [Event.call (RemoteCall.fetchVideo uri)]⟩
        match env.fetchVideo uri with
        | Except.error m => some (finallyStep (catchStep m c5))
        | Except.ok bytes =>
            some (finallyStep
              ⟨{ c5.ui with
                  videoUri := some bytes
                  status := "Scene generation complete!" }, c5.events⟩)

/-- `generateScene` of src/index.tsx (lines 269-370).  The precondition
check returns before any remote call or state reset; otherwise the run
sets loading, clears both artifacts, and executes Stage A then Stage B
inside one try/catch/finally: a throw anywhere lands in the single catch
block (`catchStep`) followed by the finally block (`finallyStep`). -/
def generateScene (form : FormState) (env : Env) (ui0 : UiState) : Option Ctx :=
  if form.videoPrompt = "" ∧ form.uploadedImage = none then
    some ⟨{ ui0 with status := "Please provide a video prompt or an image." }, []⟩
  else
    let c0 : Ctx := ⟨{ ui0 with loading := true, videoUri := none, audioUri := none },
      []⟩
    match stageA form env c0 with
    | Except.error (m, cE) => some (finallyStep (catchStep m cE))
    | Except.ok c2 => stageB form env c2

/-- Whether an event is a video-submission call. -/
def isGenVideosEvent : Event → Bool
  | Event.call (RemoteCall.generateVideos _) => true
  | _ => false

/-- Whether an event is the video binary fetch. -/
def isFetchEvent : Event → Bool
  | Event.call (RemoteCall.fetchVideo _) => true
  | _ => false

/-- Whether an event is a 5000 ms wait. -/
def isWait5000 : Event → Bool
  | Event.wait 5000 => true
  | _ => false

/-- The number of 5000 ms waits occurring before the first video binary
fetch call of a trace. -/
def fiveSecondWaitsBeforeFetch (evs : List Event) : Nat :=
  ((evs.takeWhile fun e => !(isFetchEvent e)).filter isWait5000).length

/-- The UI state at application start. -/
def initialUi : UiState := ⟨"", false, none, none⟩

/-- A concrete document with a video prompt and a non-empty dialogue. -/
def form1 : FormState :=
  ⟨"cat", "hi", Aspect.wide, none, "Kore", none, none, (3 : ℚ) / 20⟩

/-- An environment whose speech call throws. -/
def env1 : Env :=
  ⟨Except.error "boom", Except.ok ⟨true, some "u"⟩, [], fun _ => Except.ok []⟩

/-- C1 fails as stated: with dialogue `hi`, prompt `cat` and a speech call
that throws `boom`, the run ends in the catch block with status
`Error: boom` and its trace holds only the speech call — the
video-generation stage is never attempted (zero video-submission calls),
so an audio-stage error does block video generation. -/
theorem c1_stageA_failure_blocks_video_cex :
    generateScene form1 env1 initialUi =
      some ⟨⟨"Error: boom", false, none, none⟩,
        [Event.call (RemoteCall.tts "hi" "Kore")]⟩ ∧
    ([Event.call (RemoteCall.tts "hi" "Kore")].filter isGenVideosEvent).length = 0 := by
  constructor
  · rfl
  · rfl

/-- C1 (amended): a thrown error in Stage A is caught by the single
pipeline-level handler: the status becomes the error string and Stage B is
not attempted — the run's trace holds exactly the one speech call and no
video-submission call.  Only a speech response without audio data lets the
pipeline continue to Stage B. -/
theorem c1_stageA_error_caught_video_skipped (form : FormState) (env : Env)
    (ui : UiState) (m : String)
    (hpre : ¬(form.videoPrompt = "" ∧ form.uploadedImage = none))
    (hd : form.dialogue ≠ "") (ht : env.tts = Except.error m) (hm : m ≠ "") :
    generateScene form env ui =
      some ⟨⟨"Error: " ++ m, false, none, none⟩,
        [Event.call (RemoteCall.tts form.dialogue form.voiceName)]⟩ := by
  simp [generateScene, stageA, hpre, hd, ht, finallyStep, catchStep, errorStatus, hm]

/-- Witness for C1 (amended) at the concrete run of the counterexample. -/
theorem c1_witness :
    ¬(form1.videoPrompt = "" ∧ form1.uploadedImage = none) ∧
    form1.dialogue ≠ "" ∧ env1.tts = Except.error "boom" ∧ ("boom" : String) ≠ "" ∧
    generateScene form1 env1 initialUi =
      some ⟨⟨"Error: boom", false, none, none⟩,
        [Event.call (RemoteCall.tts "hi" "Kore")]⟩ :=
  ⟨by decide, by decide, rfl, by decide,
    c1_stageA_error_caught_video_skipped form1 env1 initialUi "boom"
      (by decide) (by decide) rfl (by decide)⟩

/-- C6: with an empty video prompt and no reference image, the run returns
immediately: the status becomes the precondition message, the event trace
is empty (no remote call, no wait), and the rest of the UI state is left
untouched — whatever the dialogue field holds. -/
theorem c6_precondition_no_calls (form : FormState) (env : Env) (ui : UiState)
    (hp : form.videoPrompt = "") (hi : form.uploadedImage = none) :
    generateScene form env ui =
      some ⟨{ ui with status := "Please provide a video prompt or an image." }, []⟩ := by
  unfold generateScene
  rw [if_pos ⟨hp, hi⟩]

/-- A concrete document with only dialogue set (no prompt, no image). -/
def form6 : FormState :=
  ⟨"", "hello there", Aspect.wide, none, "Kore", none, none, (3 : ℚ) / 20⟩

/-- Witness for C6 at a document with non-empty dialogue only. -/
theorem c6_witness :
    form6.videoPrompt = "" ∧ form6.uploadedImage = none ∧ form6.dialogue ≠ "" ∧
    generateScene form6 env1 initialUi =
      some ⟨⟨"Please provide a video prompt or an image.", false, none, none⟩, []⟩ :=
  ⟨rfl, rfl, by decide, c6_precondition_no_calls form6 env1 initialUi rfl rfl⟩

/-- A concrete document with a prompt and no dialogue. -/
def form7 : FormState :=
  ⟨"cat", "", Aspect.wide, none, "Kore", none, none, (3 : ℚ) / 20⟩

/-- An environment whose initial operation is pending and whose status
re-queries return not-done twice and then done with locator `u`. -/
def env7 : Env :=
  ⟨Except.ok none, Except.ok ⟨false, none⟩,
    [Except.ok ⟨false, none⟩, Except.ok ⟨false, none⟩, Except.ok ⟨true, some "u"⟩],
    fun _ => Except.ok [7]⟩

/-- The event trace of the run of `form7` against `env7`. -/
def events7 : List Event :=
  [Event.call (RemoteCall.generateVideos "cat"),
   Event.wait 5000, Event.call RemoteCall.getVideosOperation,
   Event.wait 5000, Event.call RemoteCall.getVideosOperation,
   Event.wait 5000, Event.call RemoteCall.getVideosOperation,
   Event.call (RemoteCall.fetchVideo "u")]

/-- C7 fails as stated: when the status re-query returns not-done twice and
then done with a valid locator, the loop body runs three times — every
re-query is preceded by one 5-second wait — so three 5-second waits (not
two) occur before the video binary fetch; the final status is the
completion message. -/
theorem c7_two_waits_cex :
    generateScene form7 env7 initialUi =
      some ⟨⟨"Scene generation complete!", false, some [7], none⟩, events7⟩ ∧
    fiveSecondWaitsBeforeFetch events7 = 3 ∧
    fiveSecondWaitsBeforeFetch events7 ≠ 2 := by
  refine ⟨rfl, rfl, by decide⟩

/-- Stage B under the C7 scenario: pending initial operation, two not-done
re-queries, then done with locator `u`, successful fetch. -/
theorem stageB_poll_scenario (form : FormState) (env : Env) (c2 : Ctx)
    (u : String) (bytes : List Nat)
    (hgv : env.generateVideos = Except.ok ⟨false, none⟩)
    (hpolls : env.polls = [Except.ok ⟨false, none⟩, Except.ok ⟨false, none⟩,
      Except.ok ⟨true, some u⟩])
    (hf : env.fetchVideo u = Except.ok bytes) :
    stageB form env c2 =
      some ⟨⟨"Scene generation complete!", false, some bytes, c2.ui.audioUri⟩,
        c2.events ++
          [Event.call (RemoteCall.generateVideos (veoPrompt form)),
           Event.wait 5000, Event.call RemoteCall.getVideosOperation,
           Event.wait 5000, Event.call RemoteCall.getVideosOperation,
           Event.wait 5000, Event.call RemoteCall.getVideosOperation,
           Event.call (RemoteCall.fetchVideo u)]⟩ := by
  unfold stageB
  rw [hgv, hpolls]
  simp [pollLoop, hf, finallyStep, List.append_assoc]

/-- C7 (amended): in a run whose initial operation is pending and whose
status re-query returns not-done twice and then done with a valid locator,
the loop body runs three times, so exactly three 5-second waits — one
before each re-query — occur before the video binary fetch call, and the
final status is the completion message. -/
theorem c7_three_waits_before_fetch (form : FormState) (env : Env)
    (ui : UiState) (u : String) (bytes : List Nat)
    (hpre : ¬(form.videoPrompt = "" ∧ form.uploadedImage = none))
    (hCond : form.dialogue = "" ∨ ∃ r, env.tts = Except.ok r)
    (hgv : env.generateVideos = Except.ok ⟨false, none⟩)
    (hpolls : env.polls = [Except.ok ⟨false, none⟩, Except.ok ⟨false, none⟩,
      Except.ok ⟨true, some u⟩])
    (hf : env.fetchVideo u = Except.ok bytes) :
    ∃ c, generateScene form env ui = some c ∧
      c.ui.status = "Scene generation complete!" ∧
      fiveSecondWaitsBeforeFetch c.events = 3 ∧
      c.ui.loading = false ∧ c.ui.videoUri = some bytes := by
  by_cases hd : form.dialogue = ""
  · have heq : generateScene form env ui =
        stageB form env ⟨⟨ui.status, true, none, none⟩, []⟩ := by
      simp only [generateScene, if_neg hpre, stageA, if_pos hd]
    rw [stageB_poll_scenario form env _ u bytes hgv hpolls hf] at heq
    exact ⟨_, heq, rfl, rfl, rfl, rfl⟩
  · obtain ⟨r, hr⟩ := hCond.resolve_left hd
    cases r with
    | none =>
      have heq : generateScene form env ui =
          stageB form env ⟨⟨"Generating voiceover...", true, none, none⟩,
            [Event.call (RemoteCall.tts form.dialogue form.voiceName)]⟩ := by
        simp only [generateScene, if_neg hpre, stageA, if_neg hd, hr, List.nil_append]
      rw [stageB_poll_scenario form env _ u bytes hgv hpolls hf] at heq
      exact ⟨_, heq, rfl, rfl, rfl, rfl⟩
    | some b =>
      have heq : generateScene form env ui =
          stageB form env ⟨⟨"Generating voiceover...", true, none,
              some (addWavHeader b 24000 1)⟩,
            [Event.call (RemoteCall.tts form.dialogue form.voiceName)]⟩ := by
        simp only [generateScene, if_neg hpre, stageA, if_neg hd, hr, List.nil_append]
      rw [stageB_poll_scenario form env _ u bytes hgv hpolls hf] at heq
      exact ⟨_, heq, rfl, rfl, rfl, rfl⟩

/-- Witness for C7 (amended) at the concrete run of the counterexample. -/
theorem c7_witness :
    ¬(form7.videoPrompt = "" ∧ form7.uploadedImage = none) ∧
    form7.dialogue = "" ∧
    env7.generateVideos = Except.ok ⟨false, none⟩ ∧
    env7.fetchVideo "u" = Except.ok [7] ∧
    (∃ c, generateScene form7 env7 initialUi = some c ∧
      c.ui.status = "Scene generation complete!" ∧
      fiveSecondWaitsBeforeFetch c.events = 3 ∧
      c.ui.loading = false ∧ c.ui.videoUri = some [7]) :=
  ⟨by decide, rfl, rfl, rfl,
    c7_three_waits_before_fetch form7 env7 initialUi "u" [7]
      (by decide) (Or.inl rfl) rfl rfl rfl⟩

theorem pollLoop_ok_of_outcome :
    ∀ (polls : List (Except String Operation)) (op : Operation) (c : Ctx)
      (opf : Operation), pollOutcome op polls = some (Except.ok opf) →
      ∃ c', pollLoop op polls c = some (Except.ok (opf, c')) ∧
        c'.ui.audioUri = c.ui.audioUri ∧ c'.ui.videoUri = c.ui.videoUri ∧
        c'.ui.loading = c.ui.loading := by
  intro polls
  induction polls with
  | nil =>
    intro op c opf h
    simp only [pollOutcome] at h
    by_cases hdone : op.done
    · rw [if_pos hdone] at h
      have hop : op = opf := Except.ok.inj (Option.some.inj h)
      subst hop
      exact ⟨c, by simp [pollLoop, hdone], rfl, rfl, rfl⟩
    · rw [if_neg hdone] at h
      exact absurd h (by simp)
  | cons p rest ih =>
    intro op c opf h
    simp only [pollOutcome] at h
    by_cases hdone : op.done
    · rw [if_pos hdone] at h
      have hop : op = opf := Except.ok.inj (Option.some.inj h)
      subst hop
      exact ⟨c, by simp [pollLoop, hdone], rfl, rfl, rfl⟩
    · rw [if_neg hdone] at h
      cases p with
      | error m =>
        have := Option.some.inj h
        simp at this
      | ok op2 =>
        obtain ⟨c', hpl, ha, hv, hl⟩ := ih op2
          ⟨{ c.ui with status := "Veo is thinking..." },
            c.events ++ [Event.wait 5000, Event.call RemoteCall.getVideosOperation]⟩
          opf h
        refine ⟨c', ?_, ha, hv, hl⟩
        simp only [pollLoop, if_neg hdone]
        exact hpl

theorem stageB_no_locator (form : FormState) (env : Env) (c2 : Ctx)
    (op0 opf : Operation) (hgv : env.generateVideos = Except.ok op0)
    (hpoll : pollOutcome op0 env.polls = some (Except.ok opf))
    (hnouri : opf.videoUri = none) :
    ∃ c, stageB form env c2 = some c ∧
      c.ui.status = "Error: No video returned" ∧
      c.ui.audioUri = c2.ui.audioUri ∧ c.ui.loading = false := by
  unfold stageB
  rw [hgv]
  dsimp only
  obtain ⟨c', hpl, ha, hv, hl⟩ := pollLoop_ok_of_outcome env.polls op0
    ⟨{ c2.ui with
        status := "Generating video with Veo (this may take a minute)..." },
      c2.events ++ [Event.call (RemoteCall.generateVideos (veoPrompt form))]⟩
    opf hpoll
  rw [hpl]
  dsimp only
  rw [hnouri]
  exact ⟨_, rfl, rfl, ha, rfl⟩

/-- C8: in every run in which Stage A published an audio artifact and the
completed video operation carries no video locator, the pipeline ends with
the error status `Error: No video returned` and the audio reference
published earlier in the same run is still the wrapped speech bytes — it
is not cleared or rolled back. -/
theorem c8_no_locator_error_audio_retained (form : FormState) (env : Env)
    (ui : UiState) (bytes : List Nat) (op0 opf : Operation)
    (hpre : ¬(form.videoPrompt = "" ∧ form.uploadedImage = none))
    (hd : form.dialogue ≠ "") (ht : env.tts = Except.ok (some bytes))
    (hgv : env.generateVideos = Except.ok op0)
    (hpoll : pollOutcome op0 env.polls = some (Except.ok opf))
    (hnouri : opf.videoUri = none) :
    ∃ c, generateScene form env ui = some c ∧
      c.ui.status = "Error: No video returned" ∧
      c.ui.audioUri = some (addWavHeader bytes 24000 1) ∧
      c.ui.loading = false := by
  have heq : generateScene form env ui =
      stageB form env ⟨⟨"Generating voiceover...", true, none,
          some (addWavHeader bytes 24000 1)⟩,
        [Event.call (RemoteCall.tts form.dialogue form.voiceName)]⟩ := by
    simp only [generateScene, if_neg hpre, stageA, if_neg hd, ht, List.nil_append]
  obtain ⟨c, hc, hs, ha, hl⟩ := stageB_no_locator form env
    ⟨⟨"Generating voiceover...", true, none, some (addWavHeader bytes 24000 1)⟩,
      [Event.call (RemoteCall.tts form.dialogue form.voiceName)]⟩
    op0 opf hgv hpoll hnouri
  exact ⟨c, heq.trans hc, hs, ha, hl⟩

/-- A concrete document for the C8 witness run. -/
def form8 : FormState :=
  ⟨"dog", "hey", Aspect.tall, none, "Puck", none, none, (3 : ℚ) / 20⟩

/-- An environment whose video operation completes at once without a
locator, after a successful speech call. -/
def env8 : Env :=
  ⟨Except.ok (some [1, 2]), Except.ok ⟨true, none⟩, [], fun _ => Except.ok []⟩

/-- Witness for C8 at a concrete run. -/
theorem c8_witness :
    ¬(form8.videoPrompt = "" ∧ form8.uploadedImage = none) ∧
    form8.dialogue ≠ "" ∧ env8.tts = Except.ok (some [1, 2]) ∧
    env8.generateVideos = Except.ok ⟨true, none⟩ ∧
    pollOutcome ⟨true, none⟩ env8.polls = some (Except.ok ⟨true, none⟩) ∧
    (∃ c, generateScene form8 env8 initialUi = some c ∧
      c.ui.status = "Error: No video returned" ∧
      c.ui.audioUri = some (addWavHeader [1, 2] 24000 1) ∧
      c.ui.loading = false) :=
  ⟨by decide, by decide, rfl, rfl, rfl,
    c8_no_locator_error_audio_retained form8 env8 initialUi [1, 2]
      ⟨true, none⟩ ⟨true, none⟩ (by decide) (by decide) rfl rfl rfl rfl⟩

/-- The initial document of `useUndoRedo<FormState>` (src/index.tsx lines
107-116): empty texts, wide aspect, no image, voice `Kore`, no music, and
volume 0.15. -/
def initialFormState : FormState :=
  ⟨"", "", Aspect.wide, none, "Kore", none, none, (3 : ℚ) / 20⟩

/-- The edit operations the App component dispatches into the history
manager: one per handler in src/index.tsx.  The field editors and the
volume slider dispatch `UPDATE_FIELD`; the music upload and removal
handlers dispatch `SET` with a copy of the current present in which the
music payload and name are set or cleared as a pair; the toolbar and
keyboard shortcuts dispatch `UNDO`/`REDO`. -/
inductive AppEdit where
  | editVideoPrompt (v : String) : AppEdit
  | editDialogue (v : String) : AppEdit
  | editAspect (a : Aspect) : AppEdit
  | uploadImage (dataUrl : String) : AppEdit
  | chooseVoice (v : String) : AppEdit
  | uploadMusic (dataUrl name : String) : AppEdit
  | clearMusic : AppEdit
  | slideVolume (v : ℚ) : AppEdit
  | undoEdit : AppEdit
  | redoEdit : AppEdit

/-- The reducer action a given App edit dispatches, as a function of the
present document (the music handlers spread the current form state into
the `SET` payload). -/
def AppEdit.toAction (e : AppEdit) (fs : FormState) : Action FormState :=
  match e with
  | AppEdit.editVideoPrompt v => Action.updateField (fun p => { p with videoPrompt := v })
  | AppEdit.editDialogue v => Action.updateField (fun p => { p with dialogue := v })
  | AppEdit.editAspect a => Action.updateField (fun p => { p with aspect := a })
  | AppEdit.uploadImage d => Action.updateField (fun p => { p with uploadedImage := some d })
  | AppEdit.chooseVoice v => Action.updateField (fun p => { p with voiceName := v })
  | AppEdit.uploadMusic d n =>
      Action.set { fs with backgroundMusic := some d
                           bgMusicName := some n }
  | AppEdit.clearMusic =>
      Action.set { fs with backgroundMusic := none
                           bgMusicName := none }
  | AppEdit.slideVolume v => Action.updateField (fun p => { p with bgMusicVolume := v })
  | AppEdit.undoEdit => Action.undo
  | AppEdit.redoEdit => Action.redo

/-- Dispatching one App edit through the history reducer. -/
def applyAppEdit (s : HistoryState FormState) (e : AppEdit) : HistoryState FormState :=
  historyReducer s (e.toAction s.present)

/-- The constraint the volume slider's range input imposes on the value it
can dispatch: its attributes are min 0 and max 1 (src/index.tsx lines
645-653), so a slider edit always carries a value in [0, 1].  Every other
edit is unconstrained. -/
def volumeWithinSlider : AppEdit → Prop
  | AppEdit.slideVolume v => 0 ≤ v ∧ v ≤ 1
  | _ => True

/-- The history states reachable from application start through the App's
edit operations, each slider edit carrying a value the range input can
produce. -/
inductive ReachableHist : HistoryState FormState → Prop where
  | init : ReachableHist (initialHistory initialFormState)
  | step (s : HistoryState FormState) (e : AppEdit) : ReachableHist s →
      volumeWithinSlider e → ReachableHist (applyAppEdit s e)

/-- The background-music volume of a document lies in [0, 1]. -/
def volOK (d : FormState) : Prop :=
  0 ≤ d.bgMusicVolume ∧ d.bgMusicVolume ≤ 1

/-- Every document held anywhere in a history state — past, present and
future — has its volume in [0, 1]. -/
def histVolOK (s : HistoryState FormState) : Prop :=
  (∀ d ∈ s.past, volOK d) ∧ volOK s.present ∧ ∀ d ∈ s.future, volOK d

theorem histVolOK_updateField (s : HistoryState FormState)
    (upd : FormState → FormState) (h : histVolOK s)
    (hupd : volOK (upd s.present)) :
    histVolOK (historyReducer s (Action.updateField upd)) := by
  obtain ⟨hp, hq, _⟩ := h
  refine ⟨?_, hupd, ?_⟩
  · intro d hd
    rcases List.mem_append.mp hd with h1 | h2
    · exact hp d h1
    · rw [List.mem_singleton] at h2
      subst h2
      exact hq
  · intro d hd
    exact absurd hd (List.not_mem_nil d)

theorem histVolOK_set (s : HistoryState FormState) (p : FormState)
    (h : histVolOK s) (hvol : volOK p) :
    histVolOK (historyReducer s (Action.set p)) := by
  by_cases he : p = s.present
  · simpa [historyReducer, he] using h
  · obtain ⟨hp, hq, _⟩ := h
    refine ⟨?_, ?_, ?_⟩
    · intro d hd
      simp only [historyReducer, if_neg he] at hd
      rcases List.mem_append.mp hd with h1 | h2
      · exact hp d h1
      · rw [List.mem_singleton] at h2
        subst h2
        exact hq
    · simpa [historyReducer, if_neg he] using hvol
    · intro d hd
      simp [historyReducer, if_neg he] at hd

theorem histVolOK_undo (s : HistoryState FormState) (h : histVolOK s) :
    histVolOK (historyReducer s Action.undo) := by
  obtain ⟨hp, hq, hf⟩ := h
  by_cases hpe : s.past = []
  · simpa [historyReducer, hpe] using ⟨hp, hq, hf⟩
  · refine ⟨?_, ?_, ?_⟩
    · intro d hd
      simp only [historyReducer, dif_neg hpe] at hd
      exact hp d (List.mem_of_mem_dropLast hd)
    · simp only [historyReducer, dif_neg hpe]
      exact hp _ (List.getLast_mem hpe)
    · intro d hd
      simp only [historyReducer, dif_neg hpe] at hd
      rcases List.mem_cons.mp hd with h1 | h2
      · subst h1; exact hq
      · exact hf d h2

theorem histVolOK_redo (s : HistoryState FormState) (h : histVolOK s) :
    histVolOK (historyReducer s Action.redo) := by
  obtain ⟨hp, hq, hf⟩ := h
  cases hfe : s.future with
  | nil => simpa [historyReducer, hfe] using ⟨hp, hq, hf⟩
  | cons f rest =>
    refine ⟨?_, ?_, ?_⟩
    · intro d hd
      simp only [historyReducer, hfe] at hd
      rcases List.mem_append.mp hd with h1 | h2
      · exact hp d h1
      · rw [List.mem_singleton] at h2
        subst h2
        exact hq
    · simp only [historyReducer, hfe]
      exact hf f (hfe ▸ List.mem_cons_self f rest)
    · intro d hd
      simp only [historyReducer, hfe] at hd
      exact hf d (hfe ▸ List.mem_cons_of_mem f hd)

/-- C9: in every history state reachable from the initial document through
the App's edit operations (field updates, music upload and removal, the
volume slider bounded by its range input, undo and redo), the
background-music volume of the present document and of every document in
`past` and `future` lies in [0, 1]. -/
theorem c9_volume_invariant (s : HistoryState FormState)
    (h : ReachableHist s) : histVolOK s := by
  induction h with
  | init =>
    refine ⟨?_, ?_, ?_⟩
    · intro d hd
      exact absurd hd (List.not_mem_nil d)
    · constructor <;> norm_num [initialHistory, initialFormState]
    · intro d hd
      exact absurd hd (List.not_mem_nil d)
  | step s e hr hv ih =>
    cases e with
    | editVideoPrompt v => exact histVolOK_updateField s _ ih ih.2.1
    | editDialogue v => exact histVolOK_updateField s _ ih ih.2.1
    | editAspect a => exact histVolOK_updateField s _ ih ih.2.1
    | uploadImage d => exact histVolOK_updateField s _ ih ih.2.1
    | chooseVoice v => exact histVolOK_updateField s _ ih ih.2.1
    | uploadMusic d n => exact histVolOK_set s _ ih ih.2.1
    | clearMusic => exact histVolOK_set s _ ih ih.2.1
    | slideVolume v => exact histVolOK_updateField s _ ih hv
    | undoEdit => exact histVolOK_undo s ih
    | redoEdit => exact histVolOK_redo s ih

/-- Witness for C9 after one slider edit to volume 1 from the initial
state. -/
theorem c9_witness :
    histVolOK (applyAppEdit (initialHistory initialFormState)
      (AppEdit.slideVolume 1)) :=
  c9_volume_invariant _
    (ReachableHist.step _ _ ReachableHist.init (by norm_num [volumeWithinSlider]))

end CineGen
